import Mathlib

/-!
Shallow embedding of the reviewer-assignment service
(internal/service/service.go, internal/repository/repository.go and the
schema in internal/migrations/sql/0001_init.up.sql) together with proofs
about its operations.

The database is a record of lists of rows, one list per table, in insertion
order (so list order models the assigned_at / created_at ordering used by the
ORDER BY clauses).  SQL "ORDER BY random()" is modelled by an explicit
shuffle parameter, quantified in the theorems over all permutations, so a
theorem holds for every possible random outcome.  Every service operation
returns its outcome together with the resulting database; RunInTx rollback is
modelled by returning the unchanged input database on the error paths that
the transaction aborts.
-/

deriving instance DecidableEq for Except

namespace ReviewSvc

/-- Pull request status, from domain/models.go. -/
inductive PRStatus where
  | opened
  | merged
deriving DecidableEq, Repr

/-- domain.TeamMember. -/
structure TeamMember where
  userID : String
  username : String
  isActive : Bool
deriving DecidableEq, Repr

/-- A row of the users table (user_id primary key). -/
structure UserRow where
  id : String
  username : String
  isActive : Bool
deriving DecidableEq, Repr

/-- domain.User as returned by Repository.GetUser (with the LEFT JOIN on
team_memberships folded into the optional team id). -/
structure UserView where
  id : String
  username : String
  isActive : Bool
  teamID : Option Nat
deriving DecidableEq, Repr

/-- A row of the team_memberships table. -/
structure MembershipRow where
  teamID : Nat
  userID : String
deriving DecidableEq, Repr

/-- A row of the pull_requests table. -/
structure PRRow where
  id : String
  name : String
  authorID : String
  status : PRStatus
  createdAt : Nat
  mergedAt : Option Nat
deriving DecidableEq, Repr

/-- A row of the pr_reviewers table; list position models assigned_at order. -/
structure ReviewerRow where
  prID : String
  reviewerID : String
deriving DecidableEq, Repr

/-- domain.PullRequest as returned by Repository.GetPullRequest. -/
structure PRView where
  id : String
  name : String
  authorID : String
  status : PRStatus
  createdAt : Nat
  mergedAt : Option Nat
  reviewers : List String
deriving DecidableEq, Repr

/-- domain.Team as returned by Repository.GetTeamByName. -/
structure Team where
  id : Nat
  name : String
  members : List TeamMember
deriving DecidableEq, Repr

/-- The relational store: one list of rows per table, plus the BIGSERIAL
sequence for team ids and a logical clock for created_at. -/
structure DB where
  teamSeq : Nat
  teams : List (Nat × String)
  users : List UserRow
  memberships : List MembershipRow
  pullRequests : List PRRow
  prReviewers : List ReviewerRow
  clock : Nat
deriving DecidableEq, Repr

def DB.empty : DB := ⟨0, [], [], [], [], [], 0⟩

/-- Repository-level errors (repository.go var block). -/
inductive RepoErr where
  | teamExists
  | teamNotFound
  | userNotFound
  | pullRequestExists
  | pullRequestNotFound
  | reviewerNotAssigned
  | internalErr
deriving DecidableEq, Repr

/-- Service-level errors (service.go var block); `internalErr` stands for the
opaque storage errors the service passes through verbatim. -/
inductive SvcErr where
  | teamExists
  | teamNotFound
  | userNotFound
  | pullRequestExists
  | pullRequestNotFound
  | pullRequestMerged
  | reviewerNotAssigned
  | noCandidate
  | internalErr
deriving DecidableEq, Repr

/-- True on a successful result. -/
def okB : Except SvcErr α → Bool
  | .ok _ => true
  | .error _ => false

/-! ## Repository layer (repository.go) -/

/-- Repository.InsertTeam: a plain INSERT into teams; a unique violation on
team_name is reported as teamExists. -/
def insertTeam (db : DB) (teamName : String) : Except RepoErr (Nat × DB) :=
  if db.teams.any (fun t => t.2 == teamName) then
    .error .teamExists
  else
    .ok (db.teamSeq + 1,
      { db with teamSeq := db.teamSeq + 1,
                teams := db.teams ++ [(db.teamSeq + 1, teamName)] })

/-- Repository.UpsertUser: INSERT ... ON CONFLICT (user_id) DO UPDATE
username / is_active. -/
def upsertUser (db : DB) (u : UserRow) : DB :=
  if db.users.any (fun x => x.id == u.id) then
    { db with users := db.users.map (fun x =>
        if x.id == u.id then { x with username := u.username, isActive := u.isActive } else x) }
  else
    { db with users := db.users ++ [u] }

/-- Repository.UpsertMembership, following its SQL text: INSERT ... ON
CONFLICT (user_id) DO UPDATE SET team_id (see the C5 theorem for the
mismatch between this conflict target and the migration's schema). -/
def upsertMembership (db : DB) (teamID : Nat) (userID : String) : DB :=
  if db.memberships.any (fun m => m.userID == userID) then
    { db with memberships := db.memberships.map (fun m =>
        if m.userID == userID then { m with teamID := teamID } else m) }
  else
    { db with memberships := db.memberships ++ [⟨teamID, userID⟩] }

/-- Repository.GetUser: users LEFT JOIN team_memberships; QueryRow takes the
first joined row. -/
def getUser (db : DB) (userID : String) : Except RepoErr UserView :=
  match db.users.find? (fun u => u.id == userID) with
  | none => .error .userNotFound
  | some u =>
    .ok { id := u.id, username := u.username, isActive := u.isActive,
          teamID := (db.memberships.find? (fun m => m.userID == userID)).map (·.teamID) }

/-- Reviewer ids of a pull request, in assignment order (the SELECT of
Repository.ListReviewers over a given pr_reviewers table). -/
def revsOf (rows : List ReviewerRow) (prID : String) : List String :=
  (rows.filter (fun r => r.prID == prID)).map (·.reviewerID)

/-- Repository.ListReviewers. -/
def listReviewers (db : DB) (prID : String) : List String :=
  revsOf db.prReviewers prID

/-- Repository.GetPullRequest. -/
def getPullRequest (db : DB) (prID : String) : Except RepoErr PRView :=
  match db.pullRequests.find? (fun p => p.id == prID) with
  | none => .error .pullRequestNotFound
  | some p =>
    .ok { id := p.id, name := p.name, authorID := p.authorID, status := p.status,
          createdAt := p.createdAt, mergedAt := p.mergedAt,
          reviewers := listReviewers db prID }

/-- Repository.CreatePullRequest: INSERT with status OPEN; duplicate id is a
unique violation reported as pullRequestExists. -/
def insertPullRequest (db : DB) (prID prName authorID : String) : Except RepoErr DB :=
  if db.pullRequests.any (fun p => p.id == prID) then
    .error .pullRequestExists
  else
    .ok { db with
      pullRequests := db.pullRequests ++ [⟨prID, prName, authorID, .opened, db.clock, none⟩],
      clock := db.clock + 1 }

/-- Whether the user exists and is active (the JOIN + is_active filter of
ListRandomActiveTeamMembers). -/
def isActiveUser (db : DB) (userID : String) : Bool :=
  match db.users.find? (fun u => u.id == userID) with
  | some u => u.isActive
  | none => false

/-- The WHERE clause of Repository.ListRandomActiveTeamMembers: members of
the team whose user is active and not in the exclusion list. -/
def eligibleMembers (db : DB) (teamID : Nat) (exclude : List String) : List String :=
  (db.memberships.filter (fun m =>
      m.teamID == teamID && isActiveUser db m.userID && !(exclude.contains m.userID))).map
    (·.userID)

/-- Repository.ListRandomActiveTeamMembers: ORDER BY random() LIMIT n,
with the random order abstracted as an explicit shuffle of the eligible
rows. -/
def listRandomActiveTeamMembers (db : DB) (shuffle : List String → List String)
    (teamID : Nat) (exclude : List String) (limit : Nat) : List String :=
  (shuffle (eligibleMembers db teamID exclude)).take limit

/-- Repository.AddReviewers: one INSERT per reviewer; a unique violation on
(pull_request_id, reviewer_id) is wrapped as an opaque error. -/
def addReviewers (db : DB) (prID : String) (reviewerIDs : List String) : Except RepoErr DB :=
  match reviewerIDs with
  | [] => .ok db
  | rid :: rest =>
    if db.prReviewers.any (fun r => r.prID == prID && r.reviewerID == rid) then
      .error .internalErr
    else
      addReviewers { db with prReviewers := db.prReviewers ++ [⟨prID, rid⟩] } prID rest

/-- Repository.ReplaceReviewer: DELETE the old reviewer's row; zero rows
affected is reviewerNotAssigned; then INSERT the replacement (a unique
violation there is wrapped as an opaque error). -/
def replaceReviewer (db : DB) (prID oldReviewerID newReviewerID : String) : Except RepoErr DB :=
  let remaining := db.prReviewers.filter (fun r => !(r.prID == prID && r.reviewerID == oldReviewerID))
  if remaining.length == db.prReviewers.length then
    .error .reviewerNotAssigned
  else if remaining.any (fun r => r.prID == prID && r.reviewerID == newReviewerID) then
    .error .internalErr
  else
    .ok { db with prReviewers := remaining ++ [⟨prID, newReviewerID⟩] }

/-- Repository.MarkPullRequestMerged: UPDATE status and
merged_at = COALESCE(merged_at, now); zero rows affected is
pullRequestNotFound. -/
def markPullRequestMerged (db : DB) (prID : String) (mergedAt : Nat) : Except RepoErr DB :=
  if db.pullRequests.any (fun p => p.id == prID) then
    .ok { db with pullRequests := db.pullRequests.map (fun p =>
      if p.id == prID then { p with status := .merged, mergedAt := some (p.mergedAt.getD mergedAt) } else p) }
  else
    .error .pullRequestNotFound

/-- Insertion step of the ORDER BY username read-back. -/
def insertByUsername (m : TeamMember) : List TeamMember → List TeamMember
  | [] => [m]
  | x :: xs => if m.username ≤ x.username then m :: x :: xs else x :: insertByUsername m xs

/-- Stable sort by username (the ORDER BY u.username of
listTeamMembersByTeamID). -/
def sortByUsername : List TeamMember → List TeamMember
  | [] => []
  | x :: xs => insertByUsername x (sortByUsername xs)

/-- Repository.listTeamMembersByTeamID. -/
def listTeamMembersByTeamID (db : DB) (teamID : Nat) : List TeamMember :=
  sortByUsername ((db.memberships.filter (fun m => m.teamID == teamID)).filterMap (fun m =>
    (db.users.find? (fun u => u.id == m.userID)).map (fun u => TeamMember.mk u.id u.username u.isActive)))

/-- Repository.GetTeamByName. -/
def getTeamByName (db : DB) (teamName : String) : Except RepoErr Team :=
  match db.teams.find? (fun t => t.2 == teamName) with
  | none => .error .teamNotFound
  | some t => .ok ⟨t.1, t.2, listTeamMembersByTeamID db t.1⟩

/-! ## Service layer (service.go)

Each operation returns the outcome paired with the resulting database; on
every path where RunInTx rolls back (or where no transaction ran) the input
database is returned unchanged. -/

/-- Service.CreateTeam. -/
def createTeam (db : DB) (teamName : String) (members : List TeamMember) :
    Except SvcErr Team × DB :=
  match insertTeam db teamName with
  | .error _ => (.error .teamExists, db)
  | .ok (teamID, db1) =>
    let db2 := members.foldl (fun d m =>
      upsertMembership (upsertUser d ⟨m.userID, m.username, m.isActive⟩) teamID m.userID) db1
    match getTeamByName db2 teamName with
    | .error _ => (.error .teamNotFound, db2)
    | .ok team => (.ok team, db2)

/-- Service.CreatePullRequest. -/
def createPullRequest (db : DB) (shuffle : List String → List String)
    (prID prName authorID : String) : Except SvcErr PRView × DB :=
  match getUser db authorID with
  | .error _ => (.error .userNotFound, db)
  | .ok author =>
    match author.teamID with
    | none => (.error .teamNotFound, db)
    | some teamID =>
      match insertPullRequest db prID prName authorID with
      | .error _ => (.error .pullRequestExists, db)
      | .ok db1 =>
        let reviewerIDs := listRandomActiveTeamMembers db1 shuffle teamID [author.id] 2
        match addReviewers db1 prID reviewerIDs with
        | .error _ => (.error .internalErr, db)
        | .ok db2 =>
          match getPullRequest db2 prID with
          | .error _ => (.error .pullRequestNotFound, db2)
          | .ok pr => (.ok pr, db2)

/-- Service.ReassignReviewer. -/
def reassignReviewer (db : DB) (shuffle : List String → List String)
    (prID oldReviewerID : String) : Except SvcErr (PRView × String) × DB :=
  match getPullRequest db prID with
  | .error _ => (.error .pullRequestNotFound, db)
  | .ok pr =>
    if pr.status == .merged then (.error .pullRequestMerged, db)
    else if !(pr.reviewers.contains oldReviewerID) then (.error .reviewerNotAssigned, db)
    else
      match getUser db oldReviewerID with
      | .error _ => (.error .userNotFound, db)
      | .ok reviewerUser =>
        match reviewerUser.teamID with
        | none => (.error .noCandidate, db)
        | some teamID =>
          match listRandomActiveTeamMembers db shuffle teamID (pr.authorID :: pr.reviewers) 1 with
          | [] => (.error .noCandidate, db)
          | replacement :: _ =>
            match replaceReviewer db prID oldReviewerID replacement with
            | .error e =>
              if e == .reviewerNotAssigned then (.error .reviewerNotAssigned, db)
              else (.error .internalErr, db)
            | .ok db1 =>
              match getPullRequest db1 prID with
              | .error _ => (.error .internalErr, db1)
              | .ok updated => (.ok (updated, replacement), db1)

/-- Service.MergePullRequest; `now` is the timestamp s.now() would produce. -/
def mergePullRequest (db : DB) (now : Nat) (prID : String) :
    Except SvcErr PRView × DB :=
  match getPullRequest db prID with
  | .error _ => (.error .pullRequestNotFound, db)
  | .ok pr =>
    if pr.status == .merged then (.ok pr, db)
    else
      match markPullRequestMerged db prID now with
      | .error _ => (.error .pullRequestNotFound, db)
      | .ok db1 =>
        match getPullRequest db1 prID with
        | .error _ => (.error .pullRequestNotFound, db1)
        | .ok updated => (.ok updated, db1)

/-! ## Well-formed databases -/

/-- Database well-formedness: the uniqueness the schema's working constraints
provide (primary keys on users.user_id, pull_requests.pull_request_id and the
(pull_request_id, reviewer_id) pair), the one-membership-row-per-user
invariant the upsert relies on, and the foreign key from pr_reviewers to
pull_requests. -/
def WF (db : DB) : Prop :=
  (db.users.map (·.id)).Nodup ∧
  (db.memberships.map (·.userID)).Nodup ∧
  (db.pullRequests.map (·.id)).Nodup ∧
  db.prReviewers.Nodup ∧
  (∀ r ∈ db.prReviewers, ∃ p ∈ db.pullRequests, p.id = r.prID)

instance (db : DB) : Decidable (WF db) := by
  unfold WF
  infer_instance

/-! ## Schema predicates for the membership relation -/

/-- Uniqueness the migration actually puts on team_memberships
(0001_init.up.sql lines 17-22): the only key is PRIMARY KEY
(team_id, user_id); idx_team_memberships_user_id is a non-unique index. -/
def membershipSchemaAdmits (rows : List MembershipRow) : Prop :=
  rows.Pairwise (fun a b => ¬(a.teamID = b.teamID ∧ a.userID = b.userID))

/-- Modelled from the spec: the claimed invariant that the membership
relation is keyed uniquely on the user, so a user has at most one
membership row. -/
def specUserUniqueMembership (rows : List MembershipRow) : Prop :=
  rows.Pairwise (fun a b => a.userID ≠ b.userID)

/-- The database MergePullRequest commits when it merges an open pull
request: the UPDATE of MarkPullRequestMerged applied to the matching row. -/
def mergeUpdate (db : DB) (prID : String) (t : Nat) : DB :=
  { db with pullRequests := db.pullRequests.map (fun p =>
      if p.id == prID then { p with status := .merged, mergedAt := some (p.mergedAt.getD t) } else p) }

/-! ## Witness databases (concrete states used by the witness theorems) -/

def dbC3 : DB :=
  ⟨0, [], [], [], [⟨"p1", "n", "a", .merged, 0, some 5⟩], [⟨"p1", "r1"⟩], 1⟩

def dbC6 : DB :=
  ⟨0, [], [⟨"a", "al", true⟩], [], [⟨"p1", "n", "a", .opened, 0, none⟩], [], 1⟩

def prC6 : PRView := ⟨"p1", "n", "a", .opened, 0, none, []⟩

def dbC9 : DB :=
  ⟨1, [(1, "T")],
   [⟨"u2", "bob", true⟩, ⟨"u3", "carol", true⟩],
   [⟨1, "u3"⟩],
   [⟨"p1", "x", "u3", .opened, 0, none⟩], [], 1⟩

def dbC2 : DB :=
  ⟨1, [(1, "T")],
   [⟨"a", "anna", true⟩, ⟨"r1", "bob", true⟩, ⟨"c", "carl", true⟩],
   [⟨1, "r1"⟩, ⟨1, "c"⟩],
   [⟨"p1", "n", "a", .opened, 0, none⟩],
   [⟨"p1", "r1"⟩], 1⟩

def dbC2x : DB :=
  ⟨1, [(1, "T")],
   [⟨"a", "anna", true⟩, ⟨"r1", "bob", true⟩, ⟨"c", "carl", true⟩],
   [⟨1, "r1"⟩, ⟨1, "c"⟩],
   [⟨"p1", "n", "a", .opened, 0, none⟩],
   [⟨"p1", "c"⟩], 1⟩

def prC2 : PRView := ⟨"p1", "n", "a", .opened, 0, none, ["r1"]⟩

def updC2 : PRView := ⟨"p1", "n", "a", .opened, 0, none, ["c"]⟩

def dbC4 : DB :=
  ⟨1, [(1, "T")],
   [⟨"a", "anna", true⟩, ⟨"r1", "bob", true⟩],
   [⟨1, "r1"⟩],
   [⟨"p2", "n", "a", .opened, 0, none⟩],
   [⟨"p2", "r1"⟩], 1⟩

def dbC7 : DB :=
  ⟨1, [(1, "T")],
   [⟨"u1", "anna", true⟩, ⟨"u2", "bob", true⟩, ⟨"u3", "carl", true⟩],
   [⟨1, "u1"⟩, ⟨1, "u2"⟩, ⟨1, "u3"⟩],
   [], [], 0⟩

def dbC10 : DB :=
  ⟨1, [(1, "T")], [⟨"u1", "anna", false⟩], [⟨1, "u1"⟩], [], [], 0⟩

def dbC8 : DB :=
  ⟨1, [(1, "T")],
   [⟨"a", "anna", true⟩, ⟨"r1", "bob", true⟩, ⟨"c", "carl", true⟩],
   [⟨1, "a"⟩, ⟨1, "r1"⟩, ⟨1, "c"⟩],
   [⟨"p2", "n", "a", .opened, 0, none⟩],
   [⟨"p2", "r1"⟩], 1⟩

def dbC8x : DB :=
  ⟨1, [(1, "T")],
   [⟨"a", "anna", true⟩, ⟨"r1", "bob", true⟩, ⟨"c", "carl", true⟩],
   [⟨1, "a"⟩, ⟨1, "r1"⟩, ⟨1, "c"⟩],
   [⟨"p2", "n", "a", .opened, 0, none⟩],
   [⟨"p2", "c"⟩], 1⟩

def prC8 : PRView := ⟨"p2", "n", "a", .opened, 0, none, ["r1"]⟩

/-! ## Helper lemmas -/

theorem getPullRequest_ok_elim {db : DB} {prID : String} {pr : PRView}
    (h : getPullRequest db prID = .ok pr) :
    ∃ row, db.pullRequests.find? (fun p => p.id == prID) = some row ∧
      row.id = prID ∧
      pr = ⟨row.id, row.name, row.authorID, row.status, row.createdAt, row.mergedAt,
            listReviewers db prID⟩ := by
  unfold getPullRequest at h
  cases hf : db.pullRequests.find? (fun p => p.id == prID) with
  | none => rw [hf] at h; cases h
  | some row =>
    rw [hf] at h
    have hid : row.id = prID := by
      have hp := List.find?_some hf
      simpa using hp
    simp only [Except.ok.injEq] at h
    exact ⟨row, rfl, hid, h.symm⟩

theorem find?_map_of_id_eq (f : PRRow → PRRow) (hf : ∀ p, (f p).id = p.id)
    (l : List PRRow) (q : String) :
    (l.map f).find? (fun p => p.id == q) = (l.find? (fun p => p.id == q)).map f := by
  induction l with
  | nil => rfl
  | cons a l ih =>
    by_cases ha : (a.id == q) = true
    · simp [List.find?, hf, ha]
    · simp [List.find?, hf, ha, ih]

theorem any_id_of_find? {l : List PRRow} {q : String} {row : PRRow}
    (hf : l.find? (fun p => p.id == q) = some row) :
    l.any (fun p => p.id == q) = true := by
  have hm := List.mem_of_find?_eq_some hf
  have hp := List.find?_some hf
  exact List.any_eq_true.mpr ⟨row, hm, hp⟩

/-! ## Claim theorems -/

/-- Claim C1 (code bug): CreateTeam is not idempotent on the team name.
Starting from the empty database, the first CreateTeam("T", [u1]) succeeds,
and the second identical call fails with TeamExists instead of succeeding
and re-applying membership: InsertTeam is a plain INSERT whose unique
violation on team_name is returned as TeamExists on any duplicate, not only
under a duplicate-create race. -/
theorem createTeam_second_call_fails_teamExists :
    okB (createTeam DB.empty "T" [⟨"u1", "alice", true⟩]).1 = true ∧
    (createTeam (createTeam DB.empty "T" [⟨"u1", "alice", true⟩]).2 "T"
        [⟨"u1", "alice", true⟩]).1 = .error .teamExists := by
  decide

/-- Claim C5 (code bug): the migration does not key team_memberships on the
user.  The two-row table [(team 1, u1), (team 2, u1)] satisfies every
uniqueness constraint the migration declares for the relation, yet user u1
holds membership rows in two teams, violating the claimed user-unique key
(which is also the conflict target UpsertMembership's ON CONFLICT (user_id)
requires and the schema never creates). -/
theorem membershipSchema_admits_user_in_two_teams :
    membershipSchemaAdmits [⟨1, "u1"⟩, ⟨2, "u1"⟩] ∧
    ¬ specUserUniqueMembership [⟨1, "u1"⟩, ⟨2, "u1"⟩] := by
  refine ⟨?_, ?_⟩
  · simp [membershipSchemaAdmits, List.pairwise_cons]
  · simp [specUserUniqueMembership, List.pairwise_cons]

/-- Claim C3: on a MERGED pull request, ReassignReviewer fails with
PullRequestMerged for every oldReviewerID, and the database (hence the
reviewer set) is unchanged by the call. -/
theorem reassign_on_merged_fails_pullRequestMerged
    (db : DB) (shuffle : List String → List String) (prID oldReviewerID : String)
    (pr : PRView) (hpr : getPullRequest db prID = .ok pr)
    (hm : pr.status = .merged) :
    reassignReviewer db shuffle prID oldReviewerID = (.error .pullRequestMerged, db) := by
  unfold reassignReviewer
  rw [hpr]
  simp [hm]

theorem reassign_on_merged_fails_pullRequestMerged_witness :
    reassignReviewer dbC3 (fun l => l) "p1" "r1" = (.error .pullRequestMerged, dbC3) :=
  reassign_on_merged_fails_pullRequestMerged dbC3 (fun l => l) "p1" "r1"
    ⟨"p1", "n", "a", .merged, 0, some 5, ["r1"]⟩ (by decide) rfl

/-- Claim C6: MergePullRequest is idempotent and the merge timestamp is set
exactly once.  Merging an OPEN pull request sets status MERGED with merge
timestamp t1 (COALESCE keeps a pre-existing stamp); merging again at any
later time t2 is a no-op success returning the same view and the same
unchanged timestamp; merging a nonexistent id fails with
PullRequestNotFound and leaves the database unchanged. -/
theorem merge_idempotent_and_absorbing
    (db : DB) (prID prID2 : String) (t1 t2 : Nat) (pr : PRView)
    (hpr : getPullRequest db prID = .ok pr) (hopen : pr.status = .opened)
    (hmiss : getPullRequest db prID2 = .error .pullRequestNotFound) :
    mergePullRequest db t1 prID =
      (.ok { pr with status := .merged, mergedAt := some (pr.mergedAt.getD t1) },
       mergeUpdate db prID t1) ∧
    mergePullRequest (mergeUpdate db prID t1) t2 prID =
      (.ok { pr with status := .merged, mergedAt := some (pr.mergedAt.getD t1) },
       mergeUpdate db prID t1) ∧
    mergePullRequest db t1 prID2 = (.error .pullRequestNotFound, db) := by
  obtain ⟨row, hf, hid, hview⟩ := getPullRequest_ok_elim hpr
  have hst : (pr.status == PRStatus.merged) = false := by rw [hopen]; rfl
  have hmk : markPullRequestMerged db prID t1 = .ok (mergeUpdate db prID t1) := by
    unfold markPullRequestMerged mergeUpdate
    rw [any_id_of_find? hf]
    simp
  have hf2 : (mergeUpdate db prID t1).pullRequests.find? (fun p => p.id == prID)
      = some { row with status := .merged, mergedAt := some (row.mergedAt.getD t1) } := by
    show (db.pullRequests.map _).find? _ = _
    rw [find?_map_of_id_eq _ (fun p => by by_cases h : (p.id == prID) = true <;> simp [h])
        db.pullRequests prID, hf]
    simp [hid]
  have hg2 : getPullRequest (mergeUpdate db prID t1) prID
      = .ok { pr with status := .merged, mergedAt := some (pr.mergedAt.getD t1) } := by
    unfold getPullRequest
    rw [hf2, hview]
    rfl
  refine ⟨?_, ?_, ?_⟩
  · simp [mergePullRequest, hpr, hst, hmk, hg2]
  · simp [mergePullRequest, hg2]
  · simp [mergePullRequest, hmiss]

theorem merge_idempotent_and_absorbing_witness :
    mergePullRequest dbC6 5 "p1" =
      (.ok { prC6 with status := .merged, mergedAt := some (prC6.mergedAt.getD 5) },
       mergeUpdate dbC6 "p1" 5) ∧
    mergePullRequest (mergeUpdate dbC6 "p1" 5) 9 "p1" =
      (.ok { prC6 with status := .merged, mergedAt := some (prC6.mergedAt.getD 5) },
       mergeUpdate dbC6 "p1" 5) ∧
    mergePullRequest dbC6 5 "zzz" = (.error .pullRequestNotFound, dbC6) :=
  merge_idempotent_and_absorbing dbC6 "p1" "zzz" 5 9 prC6 (by decide) rfl (by decide)

/-- Claim C9: CreatePullRequest fails with UserNotFound for an unknown
author, with TeamNotFound for an author without a team, and with
PullRequestExists for a duplicate pull request id; in each failure case the
database (hence pull request rows and reviewer assignments) is unchanged. -/
theorem createPullRequest_error_cases
    (db : DB) (shuffle : List String → List String)
    (prID1 nm a1 a2 a3 : String) (au2 au3 : UserView) (tid3 : Nat)
    (pEx : PRRow) (prIDx : String)
    (h1 : getUser db a1 = .error .userNotFound)
    (h2 : getUser db a2 = .ok au2) (h2t : au2.teamID = none)
    (h3 : getUser db a3 = .ok au3) (h3t : au3.teamID = some tid3)
    (hEx : pEx ∈ db.pullRequests) (hExId : pEx.id = prIDx) :
    createPullRequest db shuffle prID1 nm a1 = (.error .userNotFound, db) ∧
    createPullRequest db shuffle prID1 nm a2 = (.error .teamNotFound, db) ∧
    createPullRequest db shuffle prIDx nm a3 = (.error .pullRequestExists, db) := by
  have hins : insertPullRequest db prIDx nm a3 = .error .pullRequestExists := by
    unfold insertPullRequest
    have hx : db.pullRequests.any (fun p => p.id == prIDx) = true :=
      List.any_eq_true.mpr ⟨pEx, hEx, by simp [hExId]⟩
    rw [hx]
    simp
  refine ⟨?_, ?_, ?_⟩
  · simp [createPullRequest, h1]
  · simp [createPullRequest, h2, h2t]
  · simp [createPullRequest, h3, h3t, hins]

theorem createPullRequest_error_cases_witness :
    createPullRequest dbC9 (fun l => l) "pNew" "nm" "ghost" = (.error .userNotFound, dbC9) ∧
    createPullRequest dbC9 (fun l => l) "pNew" "nm" "u2" = (.error .teamNotFound, dbC9) ∧
    createPullRequest dbC9 (fun l => l) "p1" "nm" "u3" = (.error .pullRequestExists, dbC9) :=
  createPullRequest_error_cases dbC9 (fun l => l) "pNew" "nm" "ghost" "u2" "u3"
    ⟨"u2", "bob", true, none⟩ ⟨"u3", "carol", true, some 1⟩ 1
    ⟨"p1", "x", "u3", .opened, 0, none⟩ "p1"
    (by decide) (by decide) rfl (by decide) rfl (by decide) rfl


theorem getUser_ok_id {db : DB} {a : String} {au : UserView}
    (h : getUser db a = .ok au) : au.id = a := by
  unfold getUser at h
  cases hf : db.users.find? (fun u => u.id == a) with
  | none => rw [hf] at h; cases h
  | some u =>
    rw [hf] at h
    simp only [Except.ok.injEq] at h
    have hid : u.id = a := by simpa using List.find?_some hf
    rw [← h]
    exact hid

theorem find?_append_of_none {α : Type} {p : α → Bool} {l1 l2 : List α}
    (h : l1.find? p = none) : (l1 ++ l2).find? p = l2.find? p := by
  induction l1 with
  | nil => rfl
  | cons a l ih =>
    rw [List.find?_eq_none] at h
    have ha : p a = false := by
      have := h a (List.mem_cons_self a l)
      simpa using this
    have hrest : l.find? p = none := by
      rw [List.find?_eq_none]
      intro x hx
      exact h x (List.mem_cons_of_mem a hx)
    simp [List.find?, ha, ih hrest]

theorem revsOf_append (r1 r2 : List ReviewerRow) (q : String) :
    revsOf (r1 ++ r2) q = revsOf r1 q ++ revsOf r2 q := by
  simp [revsOf, List.filter_append]

theorem revsOf_map_mk (xs : List String) (q : String) :
    revsOf (xs.map (fun x => ⟨q, x⟩)) q = xs := by
  induction xs with
  | nil => rfl
  | cons x xs ih => simp [revsOf, List.filter] at ih ⊢; exact ih

theorem revsOf_nil_of_no_pr {rows : List ReviewerRow} {q : String}
    (h : ∀ r ∈ rows, r.prID ≠ q) : revsOf rows q = [] := by
  unfold revsOf
  rw [List.filter_eq_nil_iff.mpr]
  · rfl
  · intro r hr
    simp [h r hr]

theorem addReviewers_ok (prID : String) (rids : List String) :
    ∀ (db : DB), rids.Nodup →
      (∀ r ∈ db.prReviewers, r.prID = prID → r.reviewerID ∉ rids) →
      addReviewers db prID rids =
        .ok { db with prReviewers := db.prReviewers ++ rids.map (fun x => ⟨prID, x⟩) } := by
  induction rids with
  | nil => intro db _ _; simp [addReviewers]
  | cons rid rest ih =>
    intro db hnd hfresh
    have hany : db.prReviewers.any (fun r => r.prID == prID && r.reviewerID == rid) = false := by
      rw [List.any_eq_false]
      intro r hr
      simp only [Bool.and_eq_true, beq_iff_eq, not_and]
      intro h1 h2
      exact hfresh r hr h1 (h2 ▸ List.mem_cons_self rid rest)
    have hnd' : rest.Nodup := (List.nodup_cons.mp hnd).2
    have hhead : rid ∉ rest := (List.nodup_cons.mp hnd).1
    have hfresh' : ∀ r ∈ ({ db with prReviewers := db.prReviewers ++ [⟨prID, rid⟩] } : DB).prReviewers,
        r.prID = prID → r.reviewerID ∉ rest := by
      intro r hr hpr
      rcases List.mem_append.mp hr with hold | hnew
      · intro hmem
        exact hfresh r hold hpr (List.mem_cons_of_mem rid hmem)
      · have : r = ⟨prID, rid⟩ := by simpa using hnew
        rw [this]
        exact hhead
    unfold addReviewers
    rw [hany]
    simp only [Bool.false_eq_true, if_false]
    rw [ih _ hnd' hfresh']
    simp [List.append_assoc]

theorem eligibleMembers_nodup {db : DB} (hnd : (db.memberships.map (·.userID)).Nodup)
    (teamID : Nat) (exclude : List String) :
    (eligibleMembers db teamID exclude).Nodup := by
  unfold eligibleMembers
  exact List.Nodup.sublist (List.Sublist.map _ (List.filter_sublist _)) hnd

theorem mem_eligible_not_excluded {db : DB} {teamID : Nat} {exclude : List String} {x : String}
    (hx : x ∈ eligibleMembers db teamID exclude) : x ∉ exclude := by
  unfold eligibleMembers at hx
  obtain ⟨m, hm, heq⟩ := List.mem_map.mp hx
  have hcond := (List.mem_filter.mp hm).2
  simp only [Bool.and_eq_true, Bool.not_eq_true'] at hcond
  intro hmem
  have : exclude.contains m.userID = true :=
    List.elem_eq_true_of_mem (heq ▸ hmem)
  rw [this] at hcond
  exact absurd hcond.2 (by simp)

/-- Characterization of a successful Service.CreatePullRequest: the exact
result view and committed database, with the reviewers being the first two
of the shuffled eligible candidates. -/
theorem createPullRequest_ok
    (db : DB) (shuffle : List String → List String) (prID nm a : String)
    (au : UserView) (tid : Nat)
    (hperm : ∀ l, (shuffle l).Perm l)
    (hndm : (db.memberships.map (·.userID)).Nodup)
    (hfk : ∀ r ∈ db.prReviewers, ∃ p ∈ db.pullRequests, p.id = r.prID)
    (hu : getUser db a = .ok au) (ht : au.teamID = some tid)
    (hfresh : ∀ p ∈ db.pullRequests, p.id ≠ prID) :
    createPullRequest db shuffle prID nm a =
      (.ok ⟨prID, nm, a, .opened, db.clock, none,
            (shuffle (eligibleMembers db tid [a])).take 2⟩,
       { db with
         pullRequests := db.pullRequests ++ [⟨prID, nm, a, .opened, db.clock, none⟩],
         prReviewers := db.prReviewers ++
           ((shuffle (eligibleMembers db tid [a])).take 2).map (fun x => ⟨prID, x⟩),
         clock := db.clock + 1 }) ∧
    listReviewers
      { db with
        pullRequests := db.pullRequests ++ [⟨prID, nm, a, .opened, db.clock, none⟩],
        prReviewers := db.prReviewers ++
          ((shuffle (eligibleMembers db tid [a])).take 2).map (fun x => ⟨prID, x⟩),
        clock := db.clock + 1 } prID
      = (shuffle (eligibleMembers db tid [a])).take 2 := by
  have hauid : au.id = a := getUser_ok_id hu
  have hanyp : db.pullRequests.any (fun p => p.id == prID) = false := by
    rw [List.any_eq_false]
    intro p hp
    simp [hfresh p hp]
  have hins : insertPullRequest db prID nm a =
      .ok { db with
        pullRequests := db.pullRequests ++ [⟨prID, nm, a, .opened, db.clock, none⟩],
        clock := db.clock + 1 } := by
    unfold insertPullRequest
    rw [hanyp]
    simp
  set db1 : DB := { db with
    pullRequests := db.pullRequests ++ [⟨prID, nm, a, .opened, db.clock, none⟩],
    clock := db.clock + 1 } with hdb1
  set selected : List String := (shuffle (eligibleMembers db tid [a])).take 2 with hsel
  have hselnd : selected.Nodup := by
    rw [hsel]
    exact List.Nodup.sublist (List.take_sublist _ _)
      (((hperm _).nodup_iff).mpr (eligibleMembers_nodup hndm tid [a]))
  have hfresh1 : ∀ r ∈ db1.prReviewers, r.prID = prID → r.reviewerID ∉ selected := by
    intro r hr hpr
    obtain ⟨p, hp, hpid⟩ := hfk r hr
    exact absurd (hpid.trans hpr) (hfresh p hp)
  have hadd : addReviewers db1 prID selected =
      .ok { db1 with prReviewers := db1.prReviewers ++ selected.map (fun x => ⟨prID, x⟩) } :=
    addReviewers_ok prID selected db1 hselnd hfresh1
  have hlist : listRandomActiveTeamMembers db1 shuffle tid [au.id] 2 = selected := by
    rw [hauid, hsel]
    rfl
  have hfindnone : db.pullRequests.find? (fun p => p.id == prID) = none := by
    rw [List.find?_eq_none]
    intro p hp
    simp [hfresh p hp]
  set db2 : DB := { db1 with prReviewers := db1.prReviewers ++ selected.map (fun x => ⟨prID, x⟩) }
    with hdb2
  have hfind2 : db2.pullRequests.find? (fun p => p.id == prID)
      = some ⟨prID, nm, a, .opened, db.clock, none⟩ := by
    show (db.pullRequests ++ [(⟨prID, nm, a, .opened, db.clock, none⟩ : PRRow)]).find?
        (fun p => p.id == prID) = some ⟨prID, nm, a, .opened, db.clock, none⟩
    rw [find?_append_of_none hfindnone]
    simp [List.find?]
  have hrevs : listReviewers db2 prID = selected := by
    show revsOf (db.prReviewers ++ selected.map (fun x => ⟨prID, x⟩)) prID = selected
    rw [revsOf_append, revsOf_map_mk,
        revsOf_nil_of_no_pr (fun r hr => ?_)]
    · rfl
    · obtain ⟨p, hp, hpid⟩ := hfk r hr
      exact fun hc => hfresh p hp (hpid.trans hc)
  have hget2 : getPullRequest db2 prID =
      .ok ⟨prID, nm, a, .opened, db.clock, none, selected⟩ := by
    unfold getPullRequest
    rw [hfind2, hrevs]
  refine ⟨?_, ?_⟩
  · unfold createPullRequest
    rw [hu]
    simp only [ht]
    rw [hins]
    simp only
    rw [hlist, hadd]
    simp only
    rw [hget2]
  · exact hrevs


theorem revsOf_filter_out (rows : List ReviewerRow) (q old : String) :
    revsOf (rows.filter (fun r => !(r.prID == q && r.reviewerID == old))) q
      = (revsOf rows q).filter (fun x => !(x == old)) := by
  induction rows with
  | nil => rfl
  | cons r rows ih =>
    by_cases h1 : (r.prID == q) = true
    · by_cases h2 : (r.reviewerID == old) = true
      · simp [revsOf, List.filter_cons, h1, h2] at ih ⊢; exact ih
      · simp [revsOf, List.filter_cons, h1, h2] at ih ⊢; exact ih
    · simp [revsOf, List.filter_cons, h1] at ih ⊢; exact ih

theorem length_filter_out_of_nodup {l : List String} {a : String}
    (h : l.Nodup) (ha : a ∈ l) :
    (l.filter (fun x => !(x == a))).length + 1 = l.length := by
  induction l with
  | nil => cases ha
  | cons x l ih =>
    rcases List.mem_cons.mp ha with hax | hmem
    · subst hax
      have hnotin : a ∉ l := (List.nodup_cons.mp h).1
      have hkeep : l.filter (fun y => !(y == a)) = l := by
        rw [List.filter_eq_self]
        intro y hy
        simp only [Bool.not_eq_true', beq_eq_false_iff_ne, ne_eq]
        intro he
        exact hnotin (he ▸ hy)
      simp [List.filter_cons, hkeep]
    · by_cases hx : (x == a) = true
      · have hxa : x = a := by simpa using hx
        exact absurd hmem (hxa ▸ (List.nodup_cons.mp h).1)
      · have := ih (List.nodup_cons.mp h).2 hmem
        simp only [List.filter_cons, hx]
        simp only [Bool.not_false, if_true]
        simp only [List.length_cons]
        omega

theorem not_mem_filter_out_self (l : List String) (a : String) :
    a ∉ l.filter (fun x => !(x == a)) := by
  intro h
  have := (List.mem_filter.mp h).2
  simp at this

theorem replaceReviewer_ok_elim {db : DB} {prID old nw : String} {db' : DB}
    (h : replaceReviewer db prID old nw = .ok db') :
    db' = { db with prReviewers :=
      db.prReviewers.filter (fun r => !(r.prID == prID && r.reviewerID == old)) ++ [⟨prID, nw⟩] } := by
  unfold replaceReviewer at h
  by_cases h1 : ((db.prReviewers.filter (fun r => !(r.prID == prID && r.reviewerID == old))).length
      == db.prReviewers.length) = true
  · rw [if_pos h1] at h; cases h
  · rw [if_neg h1] at h
    by_cases h2 : ((db.prReviewers.filter (fun r => !(r.prID == prID && r.reviewerID == old))).any
        (fun r => r.prID == prID && r.reviewerID == nw)) = true
    · rw [if_pos h2] at h; cases h
    · rw [if_neg h2] at h
      simp only [Except.ok.injEq] at h
      exact h.symm

theorem replaceReviewer_not_assigned {db : DB} {prID old : String} (nw : String)
    (h : ∀ r ∈ db.prReviewers, ¬(r.prID = prID ∧ r.reviewerID = old)) :
    replaceReviewer db prID old nw = .error .reviewerNotAssigned := by
  unfold replaceReviewer
  have hkeep : db.prReviewers.filter (fun r => !(r.prID == prID && r.reviewerID == old))
      = db.prReviewers := by
    rw [List.filter_eq_self]
    intro r hr
    have := h r hr
    simp only [Bool.not_eq_true', Bool.and_eq_false_iff, beq_eq_false_iff_ne, ne_eq]
    by_cases hp : r.prID = prID
    · exact Or.inr (fun hrv => this ⟨hp, hrv⟩)
    · exact Or.inl hp
  rw [hkeep]
  simp

theorem getPullRequest_ok_of_find? {db : DB} {prID : String} {row : PRRow}
    (hf : db.pullRequests.find? (fun p => p.id == prID) = some row) :
    getPullRequest db prID =
      .ok ⟨row.id, row.name, row.authorID, row.status, row.createdAt, row.mergedAt,
           listReviewers db prID⟩ := by
  unfold getPullRequest
  rw [hf]


theorem reassignReviewer_ok_elim
    {db : DB} {shuffle : List String → List String} {prID old : String}
    {updated : PRView} {nw : String} {db' : DB}
    (hperm : ∀ l, (shuffle l).Perm l)
    (h : reassignReviewer db shuffle prID old = (.ok (updated, nw), db')) :
    ∃ pr, getPullRequest db prID = .ok pr ∧
      old ∈ pr.reviewers ∧
      nw ≠ pr.authorID ∧ nw ∉ pr.reviewers ∧
      replaceReviewer db prID old nw = .ok db' := by
  unfold reassignReviewer at h
  cases hpr : getPullRequest db prID with
  | error e2 => simp [hpr] at h
  | ok pr =>
    simp only [hpr] at h
    by_cases hm : (pr.status == PRStatus.merged) = true
    · simp [hm] at h
    · have hm' : (pr.status == PRStatus.merged) = false := by simpa using hm
      simp only [hm', Bool.false_eq_true, if_false] at h
      by_cases hc : pr.reviewers.contains old = true
      · simp only [hc, Bool.not_true, Bool.false_eq_true, if_false] at h
        cases hgu : getUser db old with
        | error e2 => simp [hgu] at h
        | ok ru =>
          simp only [hgu] at h
          cases htid : ru.teamID with
          | none => simp [htid] at h
          | some tid =>
            simp only [htid] at h
            cases hcand : listRandomActiveTeamMembers db shuffle tid
                (pr.authorID :: pr.reviewers) 1 with
            | nil => simp [hcand] at h
            | cons c rest =>
              simp only [hcand] at h
              cases hrep : replaceReviewer db prID old c with
              | error e2 =>
                simp only [hrep] at h
                by_cases he : (e2 == RepoErr.reviewerNotAssigned) = true
                · simp [he] at h
                · simp [he] at h
              | ok db1 =>
                simp only [hrep] at h
                cases hupd : getPullRequest db1 prID with
                | error e2 => simp [hupd] at h
                | ok upd =>
                  simp only [hupd, Prod.mk.injEq, Except.ok.injEq] at h
                  obtain ⟨⟨h1, h2⟩, h3⟩ := h
                  subst h1
                  rw [← h2, ← h3]
                  have hcmem : c ∈ shuffle (eligibleMembers db tid (pr.authorID :: pr.reviewers)) := by
                    apply List.take_subset 1
                    rw [show listRandomActiveTeamMembers db shuffle tid (pr.authorID :: pr.reviewers) 1
                        = (shuffle (eligibleMembers db tid (pr.authorID :: pr.reviewers))).take 1
                        from rfl] at hcand
                    rw [hcand]
                    exact List.mem_cons_self c rest
                  have helig : c ∈ eligibleMembers db tid (pr.authorID :: pr.reviewers) :=
                    ((hperm _).mem_iff).mp hcmem
                  have hni : c ∉ (pr.authorID :: pr.reviewers) :=
                    mem_eligible_not_excluded helig
                  refine ⟨pr, rfl, List.mem_of_elem_eq_true hc, ?_, ?_, hrep⟩
                  · intro hEq
                    exact hni (hEq ▸ List.mem_cons_self pr.authorID pr.reviewers)
                  · intro hmem
                    exact hni (List.mem_cons_of_mem pr.authorID hmem)
      · have hnm : old ∉ pr.reviewers := fun hm2 => hc (List.elem_eq_true_of_mem hm2)
        simp [hnm] at h

theorem reassignReviewer_error_db_eq
    {db : DB} {shuffle : List String → List String} {prID old : String}
    {e : SvcErr} {dbe : DB}
    (h : reassignReviewer db shuffle prID old = (.error e, dbe)) : dbe = db := by
  unfold reassignReviewer at h
  cases hpr : getPullRequest db prID with
  | error e2 =>
    simp only [hpr, Prod.mk.injEq] at h
    exact h.2.symm
  | ok pr =>
    simp only [hpr] at h
    by_cases hm : (pr.status == PRStatus.merged) = true
    · simp only [hm, if_true, Prod.mk.injEq] at h
      exact h.2.symm
    · have hm' : (pr.status == PRStatus.merged) = false := by simpa using hm
      simp only [hm', Bool.false_eq_true, if_false] at h
      by_cases hc : pr.reviewers.contains old = true
      · simp only [hc, Bool.not_true, Bool.false_eq_true, if_false] at h
        cases hgu : getUser db old with
        | error e2 =>
          simp only [hgu, Prod.mk.injEq] at h
          exact h.2.symm
        | ok ru =>
          simp only [hgu] at h
          cases htid : ru.teamID with
          | none =>
            simp only [htid, Prod.mk.injEq] at h
            exact h.2.symm
          | some tid =>
            simp only [htid] at h
            cases hcand : listRandomActiveTeamMembers db shuffle tid
                (pr.authorID :: pr.reviewers) 1 with
            | nil =>
              simp only [hcand, Prod.mk.injEq] at h
              exact h.2.symm
            | cons c rest =>
              simp only [hcand] at h
              cases hrep : replaceReviewer db prID old c with
              | error e2 =>
                simp only [hrep] at h
                by_cases he : (e2 == RepoErr.reviewerNotAssigned) = true
                · simp only [he, if_true, Prod.mk.injEq] at h
                  exact h.2.symm
                · have he' : (e2 == RepoErr.reviewerNotAssigned) = false := by simpa using he
                  simp only [he', Bool.false_eq_true, if_false, Prod.mk.injEq] at h
                  exact h.2.symm
              | ok db1 =>
                simp only [hrep] at h
                cases hupd : getPullRequest db1 prID with
                | error e2 =>
                  obtain ⟨row, hf, hid, hview⟩ := getPullRequest_ok_elim hpr
                  have hdb1 := replaceReviewer_ok_elim hrep
                  have hf1 : db1.pullRequests.find? (fun p => p.id == prID) = some row := by
                    rw [hdb1]
                    exact hf
                  rw [getPullRequest_ok_of_find? hf1] at hupd
                  cases hupd
                | ok upd => simp [hupd] at h
      · simp only [hc, Bool.not_false, if_true, Prod.mk.injEq] at h
        exact h.2.symm


theorem revsOf_single (q x : String) : revsOf [⟨q, x⟩] q = [x] := by
  simp [revsOf, List.filter]

theorem revsOf_nodup {rows : List ReviewerRow} (h : rows.Nodup) (q : String) :
    (revsOf rows q).Nodup := by
  unfold revsOf
  apply List.Nodup.map_on ?_ (h.filter _)
  intro x hx y hy hxy
  have hxq : x.prID = q := by simpa using (List.mem_filter.mp hx).2
  have hyq : y.prID = q := by simpa using (List.mem_filter.mp hy).2
  cases x
  cases y
  simp only at hxq hyq hxy
  simp [hxq, hyq, hxy]

/-- Claim C2: for an OPEN pull request and a currently assigned reviewer,
a successful ReassignReviewer keeps the reviewer-set size unchanged,
removes the old reviewer, and adds exactly one replacement distinct from
the author, from the old reviewer, and from every other current reviewer. -/
theorem reassign_preserves_cardinality
    (db : DB) (shuffle : List String → List String) (prID old : String)
    (updated : PRView) (nw : String) (db' : DB) (pr : PRView)
    (hperm : ∀ l, (shuffle l).Perm l) (hWF : WF db)
    (hpr : getPullRequest db prID = .ok pr)
    (h : reassignReviewer db shuffle prID old = (.ok (updated, nw), db')) :
    (listReviewers db' prID).length = (listReviewers db prID).length ∧
    old ∉ listReviewers db' prID ∧
    nw ∈ listReviewers db' prID ∧
    nw ≠ pr.authorID ∧ nw ≠ old ∧ nw ∉ listReviewers db prID := by
  obtain ⟨hndu, hndm, hndp, hndr, hfk⟩ := hWF
  obtain ⟨pr2, hpr2, hold, hna, hnr, hrep⟩ := reassignReviewer_ok_elim hperm h
  rw [hpr] at hpr2
  simp only [Except.ok.injEq] at hpr2
  subst hpr2
  obtain ⟨row, hf, hid, hview⟩ := getPullRequest_ok_elim hpr
  have hprevs : pr.reviewers = listReviewers db prID := by rw [hview]
  have hdb' := replaceReviewer_ok_elim hrep
  have hrevs' : listReviewers db' prID
      = (listReviewers db prID).filter (fun x => !(x == old)) ++ [nw] := by
    rw [hdb']
    show revsOf (db.prReviewers.filter (fun r => !(r.prID == prID && r.reviewerID == old))
        ++ [⟨prID, nw⟩]) prID = _
    rw [revsOf_append, revsOf_filter_out, revsOf_single]
    rfl
  have hndrev : (listReviewers db prID).Nodup := revsOf_nodup hndr prID
  have hold' : old ∈ listReviewers db prID := hprevs ▸ hold
  have hnr' : nw ∉ listReviewers db prID := hprevs ▸ hnr
  refine ⟨?_, ?_, ?_, ?_, ?_, hnr'⟩
  · rw [hrevs', List.length_append]
    exact length_filter_out_of_nodup hndrev hold'
  · rw [hrevs']
    intro hmem
    rcases List.mem_append.mp hmem with h1 | h1
    · exact not_mem_filter_out_self _ _ h1
    · have hx : old = nw := by simpa using h1
      exact hnr' (hx ▸ hold')
  · rw [hrevs']
    exact List.mem_append_right _ (List.mem_cons_self nw [])
  · exact hna
  · intro hEq
    apply hnr'
    rw [hEq]
    exact hold'





theorem reassign_preserves_cardinality_witness :
    (listReviewers dbC2x "p1").length = (listReviewers dbC2 "p1").length ∧
    "r1" ∉ listReviewers dbC2x "p1" ∧
    "c" ∈ listReviewers dbC2x "p1" ∧
    "c" ≠ prC2.authorID ∧ "c" ≠ "r1" ∧ "c" ∉ listReviewers dbC2 "p1" :=
  reassign_preserves_cardinality dbC2 (fun l => l) "p1" "r1" updC2 "c" dbC2x prC2
    (fun l => List.Perm.refl l) (by decide) (by decide) (by decide)



/-- Claim C4: ReassignReviewer is all-or-nothing.  Every error outcome
leaves the database unchanged; when no active member of the old reviewer's
team lies outside the exclusion set, the call fails with NoCandidate (and
the database is returned unchanged); and when the delete inside
ReplaceReviewer affects zero rows (the old reviewer is not assigned, as
after losing a race), the transaction body fails with ReviewerNotAssigned,
so RunInTx rolls everything back including the insert. -/
theorem reassign_all_or_nothing
    (db dbR : DB) (shuffle : List String → List String)
    (prID1 old1 : String) (e1 : SvcErr) (dbe : DB)
    (prID2 old2 : String) (pr : PRView) (ru : UserView) (tid : Nat)
    (prID3 old3 nw3 : String)
    (hperm : ∀ l, (shuffle l).Perm l)
    (he : reassignReviewer db shuffle prID1 old1 = (.error e1, dbe))
    (hpr : getPullRequest db prID2 = .ok pr) (hopen : pr.status = .opened)
    (hass : old2 ∈ pr.reviewers)
    (hgu : getUser db old2 = .ok ru) (htid : ru.teamID = some tid)
    (helig : eligibleMembers db tid (pr.authorID :: pr.reviewers) = [])
    (hnot : ∀ r ∈ dbR.prReviewers, ¬(r.prID = prID3 ∧ r.reviewerID = old3)) :
    dbe = db ∧
    reassignReviewer db shuffle prID2 old2 = (.error .noCandidate, db) ∧
    replaceReviewer dbR prID3 old3 nw3 = .error .reviewerNotAssigned := by
  refine ⟨reassignReviewer_error_db_eq he, ?_, replaceReviewer_not_assigned nw3 hnot⟩
  have hst : (pr.status == PRStatus.merged) = false := by rw [hopen]; rfl
  have hcont : pr.reviewers.contains old2 = true := List.elem_eq_true_of_mem hass
  have hcand : listRandomActiveTeamMembers db shuffle tid (pr.authorID :: pr.reviewers) 1 = [] := by
    show (shuffle (eligibleMembers db tid (pr.authorID :: pr.reviewers))).take 1 = []
    rw [helig, (hperm []).eq_nil]
    rfl
  simp [reassignReviewer, hpr, hst, hcont, hass, hgu, htid, hcand]

theorem reassign_all_or_nothing_witness :
    dbC4 = dbC4 ∧
    reassignReviewer dbC4 (fun l => l) "p2" "r1" = (.error .noCandidate, dbC4) ∧
    replaceReviewer dbC4 "p2" "zz" "w" = .error .reviewerNotAssigned :=
  reassign_all_or_nothing dbC4 dbC4 (fun l => l) "nope" "x" .pullRequestNotFound dbC4
    "p2" "r1" ⟨"p2", "n", "a", .opened, 0, none, ["r1"]⟩ ⟨"r1", "bob", true, some 1⟩ 1
    "p2" "zz" "w"
    (fun l => List.Perm.refl l) (by decide) (by decide) rfl (by decide)
    (by decide) rfl (by decide) (by decide)


/-- Claim C7: a successful CreatePullRequest assigns exactly
min 2 n reviewers, where n is the number of active members of the author's
team other than the author; in particular n = 0 still succeeds with zero
reviewers, for any shuffle (random outcome). -/
theorem createPR_reviewer_count
    (db : DB) (shuffle : List String → List String) (prID nm a : String)
    (au : UserView) (tid : Nat)
    (hperm : ∀ l, (shuffle l).Perm l) (hWF : WF db)
    (hu : getUser db a = .ok au) (ht : au.teamID = some tid)
    (hfresh : ∀ p ∈ db.pullRequests, p.id ≠ prID) :
    okB (createPullRequest db shuffle prID nm a).1 = true ∧
    (listReviewers (createPullRequest db shuffle prID nm a).2 prID).length
      = min 2 (eligibleMembers db tid [a]).length := by
  obtain ⟨hndu, hndm, hndp, hndr, hfk⟩ := hWF
  obtain ⟨heq, hrevs⟩ := createPullRequest_ok db shuffle prID nm a au tid hperm hndm hfk hu ht hfresh
  rw [heq]
  refine ⟨rfl, ?_⟩
  show (listReviewers _ prID).length = _
  rw [hrevs, List.length_take, (hperm _).length_eq]

theorem createPR_reviewer_count_witness :
    okB (createPullRequest dbC7 (fun l => l) "p1" "nm" "u1").1 = true ∧
    (listReviewers (createPullRequest dbC7 (fun l => l) "p1" "nm" "u1").2 "p1").length
      = min 2 (eligibleMembers dbC7 1 ["u1"]).length :=
  createPR_reviewer_count dbC7 (fun l => l) "p1" "nm" "u1" ⟨"u1", "anna", true, some 1⟩ 1
    (fun l => List.Perm.refl l) (by decide) (by decide) rfl (by decide)


/-- Claim C10: the author's active flag is irrelevant to pull request
creation: an existing, team-affiliated author with isActive = false can
still create a pull request (given a fresh id); only reviewer candidates
are filtered by activity. -/
theorem createPR_author_activity_irrelevant
    (db : DB) (shuffle : List String → List String) (prID nm a : String)
    (au : UserView) (tid : Nat)
    (hperm : ∀ l, (shuffle l).Perm l) (hWF : WF db)
    (hu : getUser db a = .ok au) (_hinactive : au.isActive = false)
    (ht : au.teamID = some tid)
    (hfresh : ∀ p ∈ db.pullRequests, p.id ≠ prID) :
    okB (createPullRequest db shuffle prID nm a).1 = true := by
  obtain ⟨hndu, hndm, hndp, hndr, hfk⟩ := hWF
  obtain ⟨heq, hrevs⟩ := createPullRequest_ok db shuffle prID nm a au tid hperm hndm hfk hu ht hfresh
  rw [heq]
  rfl

theorem createPR_author_activity_irrelevant_witness :
    okB (createPullRequest dbC10 (fun l => l) "p1" "nm" "u1").1 = true :=
  createPR_author_activity_irrelevant dbC10 (fun l => l) "p1" "nm" "u1"
    ⟨"u1", "anna", false, some 1⟩ 1
    (fun l => List.Perm.refl l) (by decide) (by decide) rfl rfl (by decide)




/-- Claim C8: the author never appears in the reviewer set: reviewer
selection at creation excludes the author, and reassignment preserves
author-absence because its exclusion set contains the author. -/
theorem author_never_reviewer
    (db : DB) (shuffle : List String → List String)
    (prID nm a : String) (au : UserView) (tid : Nat)
    (prID2 old2 : String) (updated2 : PRView) (nw2 : String) (db2 : DB) (pr2 : PRView)
    (hperm : ∀ l, (shuffle l).Perm l) (hWF : WF db)
    (hu : getUser db a = .ok au) (ht : au.teamID = some tid)
    (hfresh : ∀ p ∈ db.pullRequests, p.id ≠ prID)
    (hre : reassignReviewer db shuffle prID2 old2 = (.ok (updated2, nw2), db2))
    (hpr2 : getPullRequest db prID2 = .ok pr2)
    (hnoauth : pr2.authorID ∉ listReviewers db prID2) :
    a ∉ listReviewers (createPullRequest db shuffle prID nm a).2 prID ∧
    pr2.authorID ∉ listReviewers db2 prID2 := by
  obtain ⟨hndu, hndm, hndp, hndr, hfk⟩ := hWF
  obtain ⟨heq, hrevs⟩ := createPullRequest_ok db shuffle prID nm a au tid hperm hndm hfk hu ht hfresh
  constructor
  · rw [heq]
    show a ∉ listReviewers _ prID
    rw [hrevs]
    intro hmem
    have helig : a ∈ eligibleMembers db tid [a] :=
      ((hperm _).mem_iff).mp (List.take_subset _ _ hmem)
    exact mem_eligible_not_excluded helig (List.mem_cons_self a [])
  · obtain ⟨prx, hprx, holdx, hnax, hnrx, hrepx⟩ := reassignReviewer_ok_elim hperm hre
    rw [hpr2] at hprx
    simp only [Except.ok.injEq] at hprx
    subst hprx
    have hdb2 := replaceReviewer_ok_elim hrepx
    rw [hdb2]
    show pr2.authorID ∉ revsOf (db.prReviewers.filter
        (fun r => !(r.prID == prID2 && r.reviewerID == old2)) ++ [⟨prID2, nw2⟩]) prID2
    rw [revsOf_append, revsOf_filter_out, revsOf_single]
    intro hmem
    rcases List.mem_append.mp hmem with h1 | h1
    · exact hnoauth (List.mem_of_mem_filter h1)
    · have hx : pr2.authorID = nw2 := by simpa using h1
      exact hnax hx.symm

theorem author_never_reviewer_witness :
    "a" ∉ listReviewers (createPullRequest dbC8 (fun l => l) "p9" "nm" "a").2 "p9" ∧
    prC8.authorID ∉ listReviewers dbC8x "p2" :=
  author_never_reviewer dbC8 (fun l => l) "p9" "nm" "a" ⟨"a", "anna", true, some 1⟩ 1
    "p2" "r1" ⟨"p2", "n", "a", .opened, 0, none, ["c"]⟩ "c" dbC8x prC8
    (fun l => List.Perm.refl l) (by decide) (by decide) rfl (by decide)
    (by decide) (by decide) (by decide)

end ReviewSvc
